import Mathlib

/-!
# Verification of the `rust-semverver` translation engine (`src/translate.rs`)

A shallow embedding of the identifier-translation machinery of the
cross-version API-compatibility checker.  The Rust source is a collection of
folders over the compiler's type representation; here the relevant fragment of
that representation is reified as inductive types, and each function of
`translate.rs` is translated into an executable Lean function.

Conventions of the embedding:

* `DefId`, `Symbol` and the assorted opaque compiler handles are modelled as
  pairs/naturals.
* Rust panics (`unreachable!()`, `unimplemented!()`, out-of-bounds `HashMap`
  indexing) are modelled by the `FoldResult.panic` outcome.
* The translation folder re-enters itself on already-folded arguments
  (`translate_orig_substs` calls `self.translate` on substitution entries), so
  the recursion is not structural; every function of the folder therefore
  takes an explicit `fuel` argument and yields `FoldResult.diverge` when the
  fuel runs out.  A Rust execution that terminates is reproduced by any
  sufficiently large fuel.
* Binders (`ty::Binder`) are erased: the source only ever uses
  `Binder::dummy`/`skip_binder` in the translated code paths.
* `InternalSubsts::for_item` enumerates an item's generic parameters, parent
  parameters first.  The embedding records one level of parent (`allParams`),
  the same single level that `construct_index_map` in the source consults.
-/

namespace Semverver

/-- Interned string handle (`rustc_span::Symbol`), opaque. -/
abbrev Symbol := Nat

/-- `rustc_hir::def_id::DefId`: a crate number and a definition index. -/
structure DefId where
  krate : Nat
  idx : Nat
deriving DecidableEq

/-- `DefId::local`: a definition id in the local crate (crate number 0). -/
def DefId.local (i : Nat) : DefId := ⟨0, i⟩

/-- `rustc_hir::def_id::CRATE_DEF_INDEX`, the reserved index of the crate root. -/
def CRATE_DEF_INDEX : Nat := 0

/-- `rustc_middle::ty::BoundRegionKind` (the variants the source matches on). -/
inductive BoundRegionKind where
  | BrAnon (n : Nat)
  | BrNamed (def_id : DefId) (name : Symbol)
  | BrEnv
deriving DecidableEq

/-- `rustc_middle::ty::RegionKind`.  `ReEarlyBound` carries the
`EarlyBoundRegion { def_id, index, name }` data inline; `ReVar` stands for a
region inference variable (the only kind with `needs_infer() = true` here). -/
inductive Region where
  | ReEarlyBound (def_id : DefId) (idx : Nat) (name : Symbol)
  | ReFree (scope : DefId) (bound_region : BoundRegionKind)
  | ReStatic
  | ReErased
  | ReVar (vid : Nat)
deriving DecidableEq

/-- `Region::needs_infer`: true exactly on unresolved inference variables. -/
def Region.needs_infer : Region → Bool
  | .ReVar _ => true
  | _ => false

/-- Const operands (`ty::Const`), opaque to the engine: the source never
translates consts (`ct_op: |konst| konst`). -/
inductive Konst where
  | param (i : Nat)
  | val (n : Nat)
deriving DecidableEq

mutual
/-- The fragment of `rustc_middle::ty::TyKind` matched by `translate.rs`.
`Prim` stands for every remaining (leaf) kind, which the folder passes
through unchanged; `TyError` is `tcx.ty_error()`; `Infer` is an unresolved
inference variable (including fresh types such as `trait_object_dummy_self`). -/
inductive Ty where
  | Adt (did : DefId) (substs : List GenericArg)
  | Ref (region : Region) (ty : Ty) (mutbl : Bool)
  | FnDef (did : DefId) (substs : List GenericArg)
  | Dynamic (preds : List ExistentialPredicate) (region : Region)
  | Projection (item_def_id : DefId) (substs : List GenericArg)
  | Opaque (did : DefId) (substs : List GenericArg)
  | Param (idx : Nat) (name : Symbol)
  | Infer (vid : Nat)
  | TyError
  | Prim (code : Nat)

/-- `rustc_middle::ty::subst::GenericArg`, unpacked into its three kinds. -/
inductive GenericArg where
  | lifetime (r : Region)
  | type (t : Ty)
  | const (c : Konst)

/-- `rustc_middle::ty::ExistentialPredicate` (binder erased).  A `Trait`
entry is an `ExistentialTraitRef` (substs without the self type), a
`Projection` entry is an `ExistentialProjection`. -/
inductive ExistentialPredicate where
  | Trait (def_id : DefId) (substs : List GenericArg)
  | Projection (item_def_id : DefId) (substs : List GenericArg) (term : Term)
  | AutoTrait (did : DefId)

/-- `rustc_middle::ty::Term`. -/
inductive Term where
  | ty (t : Ty)
  | const (c : Konst)
end

/-- `rustc_middle::ty::GenericParamDefKind` (fields unused by the source are
dropped). -/
inductive GenericParamDefKind where
  | lifetime
  | type
  | const
deriving DecidableEq

/-- `rustc_middle::ty::GenericParamDef`. -/
structure GenericParamDef where
  kind : GenericParamDefKind
  idx : Nat
  def_id : DefId
  name : Symbol
deriving DecidableEq

/-- `rustc_middle::ty::Generics`: an item's own parameters, an optional
enclosing item, and the `has_self` marker. -/
structure Generics where
  parent : Option DefId
  params : List GenericParamDef
  has_self : Bool

/-- The slice of `TyCtxt` the source consults: `generics_of` and `type_of`. -/
structure TyCtxt where
  generics_of : DefId → Generics
  type_of : DefId → Ty

/-- `crate::mapping::InherentEntry`: an inherent associated item, keyed by the
`DefId` of the owning type, with an `AssocKind` (opaque) and a name. -/
structure InherentEntry where
  parent_def_id : DefId
  kind : Nat
  name : Symbol
deriving DecidableEq

/-- The interface of `crate::mapping::IdMapping` used by `translate.rs`. -/
structure IdMapping where
  in_old_crate : DefId → Bool
  in_new_crate : DefId → Bool
  get_new_id : DefId → Option DefId
  get_old_id : DefId → Option DefId
  is_non_mapped_defaulted_type_param : DefId → Bool
  get_type_param : DefId → GenericParamDef

/-- `TranslationContext`: the context in which `DefId` translation happens.
The two function-valued fields select the translation direction, exactly as
the function pointers `needs_translation`/`translate_orig` do in the source;
they are suffixed `_fn` because Lean does not allow a field and a method of
the same name. -/
structure TranslationContext where
  tcx : TyCtxt
  id_mapping : IdMapping
  translate_params : Bool
  needs_translation_fn : IdMapping → DefId → Bool
  translate_orig_fn : IdMapping → DefId → Option DefId

/-- `TranslationContext::target_new`. -/
def TranslationContext.target_new (tcx : TyCtxt) (id_mapping : IdMapping)
    (translate_params : Bool) : TranslationContext :=
  { tcx, id_mapping, translate_params,
    needs_translation_fn := IdMapping.in_old_crate,
    translate_orig_fn := IdMapping.get_new_id }

/-- `TranslationContext::target_old`. -/
def TranslationContext.target_old (tcx : TyCtxt) (id_mapping : IdMapping)
    (translate_params : Bool) : TranslationContext :=
  { tcx, id_mapping, translate_params,
    needs_translation_fn := IdMapping.in_new_crate,
    translate_orig_fn := IdMapping.get_old_id }

/-- The method `TranslationContext::needs_translation`. -/
def TranslationContext.needs_translation (ctx : TranslationContext)
    (def_id : DefId) : Bool :=
  ctx.needs_translation_fn ctx.id_mapping def_id

/-- The method `TranslationContext::translate_orig`: translate a `DefId`,
falling back to the identity on unmapped ids. -/
def TranslationContext.translate_orig (ctx : TranslationContext)
    (def_id : DefId) : DefId :=
  match ctx.translate_orig_fn ctx.id_mapping def_id with
  | some d => d
  | none => def_id

/-- The `HashMap<u32, DefId>` used as type-parameter index map, modelled as an
association list where insertion shadows earlier entries. -/
abbrev IndexMap := List (Nat × DefId)

/-- `HashMap::insert` (later insertions win). -/
def IndexMap.insert (m : IndexMap) (k : Nat) (v : DefId) : IndexMap :=
  (k, v) :: m

/-- `HashMap` lookup (`get`). -/
def IndexMap.find? (m : IndexMap) (k : Nat) : Option DefId :=
  match m with
  | [] => none
  | (k', v) :: rest => if k' = k then some v else IndexMap.find? rest k

/-- The loop body of `construct_index_map`: record a parameter iff it is of
type kind. -/
def indexMapStep (m : IndexMap) (param : GenericParamDef) : IndexMap :=
  match param.kind with
  | .type => IndexMap.insert m param.idx param.def_id
  | _ => m

/-- `TranslationContext::construct_index_map`: map each *type*-kind generic
parameter's index to its `DefId`, for the item's own parameters and (one
level of) its parent's. -/
def TranslationContext.construct_index_map (ctx : TranslationContext)
    (orig_def_id : DefId) : IndexMap :=
  let orig_generics := ctx.tcx.generics_of orig_def_id
  let index_map := orig_generics.params.foldl indexMapStep []
  match orig_generics.parent with
  | some did => (ctx.tcx.generics_of did).params.foldl indexMapStep index_map
  | none => index_map

/-- The parameter list `InternalSubsts::for_item` enumerates for an item:
the parent's parameters (one level, cf. module docstring) followed by the
item's own, i.e. in increasing index order for well-formed generics. -/
def allParams (tcx : TyCtxt) (did : DefId) : List GenericParamDef :=
  (match (tcx.generics_of did).parent with
   | some p => (tcx.generics_of p).params
   | none => []) ++ (tcx.generics_of did).params

/-- `tcx.mk_param_from_def`: the canonical generic argument referring to a
parameter definition. -/
def mk_param_from_def (d : GenericParamDef) : GenericArg :=
  match d.kind with
  | .lifetime => .lifetime (.ReEarlyBound d.def_id d.idx d.name)
  | .type => .type (.Param d.idx d.name)
  | .const => .const (.param d.idx)

/-- `tcx.types.trait_object_dummy_self`: the reserved fresh type used as the
placeholder self type of existential predicates (`Infer(FreshTy(0))`). -/
def trait_object_dummy_self : Ty := .Infer 0

/-- The sentinel predicate of the `TyKind::Dynamic` arm:
`AutoTrait(DefId::local(CRATE_DEF_INDEX))`. -/
def err_pred : ExistentialPredicate := .AutoTrait (DefId.local CRATE_DEF_INDEX)

/-- `TranslationContext::translate_region`. -/
def TranslationContext.translate_region (ctx : TranslationContext)
    (region : Region) : Region :=
  if !ctx.translate_params then region
  else
    match region with
    | .ReEarlyBound early_def_id early_idx early_name =>
      .ReEarlyBound (ctx.translate_orig early_def_id) early_idx early_name
    | .ReFree scope bound_region =>
      .ReFree (ctx.translate_orig scope)
        (match bound_region with
         | .BrNamed def_id name => .BrNamed (ctx.translate_orig def_id) name
         | reg => reg)
    | reg => reg

/-- `TranslationContext::translate_inherent_entry`. -/
def TranslationContext.translate_inherent_entry (ctx : TranslationContext)
    (orig_entry : InherentEntry) : Option InherentEntry :=
  (ctx.translate_orig_fn ctx.id_mapping orig_entry.parent_def_id).map
    (fun parent_def_id =>
      { parent_def_id, kind := orig_entry.kind, name := orig_entry.name })

/-- `TranslationContext::can_translate`. -/
def TranslationContext.can_translate (ctx : TranslationContext)
    (def_id : DefId) : Bool :=
  (ctx.translate_orig_fn ctx.id_mapping def_id).isSome

/-- The cause recorded for a modelled Rust panic. -/
inductive PanicKind where
  | indexMissing      -- `index_map[&param.index]` with an absent key
  | unreachableCode   -- `unreachable!()`
  | unimplemented     -- `unimplemented!()`
deriving DecidableEq

/-- Outcome of running a (possibly panicking, possibly diverging) translation
step under a fuel bound. -/
inductive FoldResult (α : Type) where
  | ok (a : α)
  | panic (k : PanicKind)
  | diverge
deriving DecidableEq

/-- Sequencing of fold outcomes. -/
def FoldResult.bind {α β : Type} (r : FoldResult α) (f : α → FoldResult β) :
    FoldResult β :=
  match r with
  | .ok a => f a
  | .panic k => .panic k
  | .diverge => .diverge

/-- The type argument a substitution supplies at a given position, if any:
models `if let Some(GenericArgKind::Type(type_)) = orig_substs.get(i)`. -/
def typeArgAt (substs : List GenericArg) (i : Nat) : Option Ty :=
  match substs.get? i with
  | some (.type t) => some t
  | _ => none

/-- The lifetime argument a substitution supplies at a given position:
models `if let Some(GenericArgKind::Lifetime(region)) = orig_substs.get(i)`. -/
def lifetimeArgAt (substs : List GenericArg) (i : Nat) : Option Region :=
  match substs.get? i with
  | some (.lifetime r) => some r
  | _ => none

mutual

/-- `TranslationContext::translate` instantiated at `Ty`: the `BottomUpFolder`
with `ty_op`/`lt_op`/`ct_op` as in the source.  Children are folded first
(`super_fold_with`), then `ty_op` is applied to the rebuilt node; regions met
during the structural descent go through `lt_op = translate_region`, consts
through the identity `ct_op`. -/
def translate (ctx : TranslationContext) (fuel : Nat) (index_map : IndexMap)
    (ty : Ty) : FoldResult Ty :=
  match fuel with
  | 0 => .diverge
  | n + 1 =>
    let folded : FoldResult Ty :=
      match ty with
      | .Adt did substs =>
        (translateArgs ctx n index_map substs).bind fun s => .ok (.Adt did s)
      | .Ref region t mutbl =>
        (translate ctx n index_map t).bind fun t' =>
          .ok (.Ref (ctx.translate_region region) t' mutbl)
      | .FnDef did substs =>
        (translateArgs ctx n index_map substs).bind fun s => .ok (.FnDef did s)
      | .Dynamic preds region =>
        (translateExPreds ctx n index_map preds).bind fun ps =>
          .ok (.Dynamic ps (ctx.translate_region region))
      | .Projection item_def_id substs =>
        (translateArgs ctx n index_map substs).bind fun s =>
          .ok (.Projection item_def_id s)
      | .Opaque did substs =>
        (translateArgs ctx n index_map substs).bind fun s => .ok (.Opaque did s)
      | leaf => .ok leaf
    folded.bind (ty_op ctx n index_map)

/-- Folding a substitution list (`translate` at `SubstsRef`). -/
def translateArgs (ctx : TranslationContext) (fuel : Nat)
    (index_map : IndexMap) (args : List GenericArg) :
    FoldResult (List GenericArg) :=
  match fuel with
  | 0 => .diverge
  | n + 1 =>
    match args with
    | [] => .ok []
    | a :: rest =>
      (translateArg ctx n index_map a).bind fun a' =>
        (translateArgs ctx n index_map rest).bind fun rest' =>
          .ok (a' :: rest')

/-- Folding one generic argument (`translate` at `GenericArg`): types via
`fold_ty`, regions via `lt_op`, consts via `ct_op` (identity). -/
def translateArg (ctx : TranslationContext) (fuel : Nat)
    (index_map : IndexMap) (a : GenericArg) : FoldResult GenericArg :=
  match fuel with
  | 0 => .diverge
  | n + 1 =>
    match a with
    | .lifetime r => .ok (.lifetime (ctx.translate_region r))
    | .type t => (translate ctx n index_map t).bind fun t' => .ok (.type t')
    | .const c => .ok (.const c)

/-- Structural fold of a list of existential predicates (part of
`super_fold_with` on `TyKind::Dynamic`). -/
def translateExPreds (ctx : TranslationContext) (fuel : Nat)
    (index_map : IndexMap) (preds : List ExistentialPredicate) :
    FoldResult (List ExistentialPredicate) :=
  match fuel with
  | 0 => .diverge
  | n + 1 =>
    match preds with
    | [] => .ok []
    | p :: rest =>
      (translateExPred ctx n index_map p).bind fun p' =>
        (translateExPreds ctx n index_map rest).bind fun rest' =>
          .ok (p' :: rest')

/-- Structural fold of one existential predicate: only its substitution
entries and projection term are folded; the head `DefId` is untouched by the
structural descent. -/
def translateExPred (ctx : TranslationContext) (fuel : Nat)
    (index_map : IndexMap) (p : ExistentialPredicate) :
    FoldResult ExistentialPredicate :=
  match fuel with
  | 0 => .diverge
  | n + 1 =>
    match p with
    | .Trait def_id substs =>
      (translateArgs ctx n index_map substs).bind fun s =>
        .ok (.Trait def_id s)
    | .Projection item_def_id substs term =>
      (translateArgs ctx n index_map substs).bind fun s =>
        (translateTerm ctx n index_map term).bind fun tm =>
          .ok (.Projection item_def_id s tm)
    | .AutoTrait did => .ok (.AutoTrait did)

/-- Structural fold of a `Term`. -/
def translateTerm (ctx : TranslationContext) (fuel : Nat)
    (index_map : IndexMap) (tm : Term) : FoldResult Term :=
  match fuel with
  | 0 => .diverge
  | n + 1 =>
    match tm with
    | .ty t => (translate ctx n index_map t).bind fun t' => .ok (.ty t')
    | .const c => .ok (.const c)

/-- The `ty_op` closure of `TranslationContext::translate`, applied to a node
whose children have already been folded. -/
def ty_op (ctx : TranslationContext) (fuel : Nat) (index_map : IndexMap)
    (ty : Ty) : FoldResult Ty :=
  match fuel with
  | 0 => .diverge
  | n + 1 =>
    match ty with
    | .Adt did substs =>
      -- `TyKind::Adt(adt_def, substs) if self.needs_translation(adt_def.did())`
      if ctx.needs_translation did then
        match ctx.translate_orig_fn ctx.id_mapping did with
        | some target_def_id => .ok (.Adt target_def_id substs)
        | none => .ok ty
      else .ok ty
    | .Ref region t mutbl =>
      .ok (.Ref (ctx.translate_region region) t mutbl)
    | .FnDef did substs =>
      (translate_orig_substs ctx n index_map did substs).bind fun r =>
        match r with
        | some (target_def_id, target_substs) =>
          .ok (.FnDef target_def_id target_substs)
        | none => .ok ty
    | .Dynamic preds region =>
      -- hacky error catching mechanism: on any failed predicate the whole
      -- (children-folded) node is returned unchanged
      (dynPredsLoop ctx n index_map ty preds true).bind fun sl =>
        if sl.1 then .ok (.Dynamic sl.2 region) else .ok ty
    | .Projection item_def_id substs =>
      (translate_orig_substs ctx n index_map item_def_id substs).bind fun r =>
        match r with
        | some (target_def_id, target_substs) =>
          .ok (.Projection target_def_id target_substs)
        | none => .ok ty
    | .Opaque did substs =>
      (translate_orig_substs ctx n index_map did substs).bind fun r =>
        match r with
        | some (target_def_id, target_substs) =>
          .ok (.Opaque target_def_id target_substs)
        | none => .ok ty
    | .Param param_idx param_name =>
      -- `Self` (index 0) is special
      if (param_idx != 0) && ctx.translate_params then
        match IndexMap.find? index_map param_idx with
        | none => .panic .indexMissing   -- `index_map[&param.index]`
        | some orig_def_id =>
          if ctx.needs_translation orig_def_id then
            let target_def_id := ctx.translate_orig orig_def_id
            let type_param := ctx.id_mapping.get_type_param target_def_id
            match mk_param_from_def type_param with
            | .type param_t => .ok param_t
            | _ => .panic .unreachableCode
          else .ok (.Param param_idx param_name)
      else .ok (.Param param_idx param_name)
    | other => .ok other

/-- The `preds.iter().map(...)` loop of the `TyKind::Dynamic` arm, threading
the shared `success` cell.  `whole` is the (children-folded) trait-object
type the closure was applied to — the source stores it (as `ty`) into the
term of every translated projection. -/
def dynPredsLoop (ctx : TranslationContext) (fuel : Nat)
    (index_map : IndexMap) (whole : Ty) (preds : List ExistentialPredicate)
    (success : Bool) : FoldResult (Bool × List ExistentialPredicate) :=
  match fuel with
  | 0 => .diverge
  | n + 1 =>
    match preds with
    | [] => .ok (success, [])
    | p :: rest =>
      match p with
      | .Trait existential_def_id existential_substs =>
        -- reconstitute a full trait ref with the dummy self type, translate,
        -- then erase the self type again
        (translate_orig_substs ctx n index_map existential_def_id
            (.type trait_object_dummy_self :: existential_substs)).bind fun r =>
          let (success', p') : Bool × ExistentialPredicate :=
            match r with
            | some (target_def_id, target_substs) =>
              (success, .Trait target_def_id (target_substs.drop 1))
            | none => (false, err_pred)
          (dynPredsLoop ctx n index_map whole rest success').bind fun sl =>
            .ok (sl.1, p' :: sl.2)
      | .Projection item_def_id existential_substs _term =>
        (translate_orig_substs ctx n index_map item_def_id
            (.type trait_object_dummy_self :: existential_substs)).bind fun r =>
          let (success', p') : Bool × ExistentialPredicate :=
            match r with
            | some (target_def_id, target_substs) =>
              -- `term: Term::Ty(ty)` — the closure's own `ty`, i.e. `whole`
              (success, .Projection target_def_id (target_substs.drop 1)
                (.ty whole))
            | none => (false, err_pred)
          (dynPredsLoop ctx n index_map whole rest success').bind fun sl =>
            .ok (sl.1, p' :: sl.2)
      | .AutoTrait did =>
        (dynPredsLoop ctx n index_map whole rest success).bind fun sl =>
          .ok (sl.1, ExistentialPredicate.AutoTrait (ctx.translate_orig did) :: sl.2)

/-- `TranslationContext::translate_orig_substs`: translate the `DefId` and
substs of an item, rebuilding the substitution against the *target* item's
parameter list. -/
def translate_orig_substs (ctx : TranslationContext) (fuel : Nat)
    (index_map : IndexMap) (orig_def_id : DefId)
    (orig_substs : List GenericArg) :
    FoldResult (Option (DefId × List GenericArg)) :=
  match fuel with
  | 0 => .diverge
  | n + 1 =>
    match ctx.translate_orig_fn ctx.id_mapping orig_def_id with
    | none => .ok none
    | some target_def_id =>
      (forItemLoop ctx n index_map target_def_id orig_substs
          (allParams ctx.tcx target_def_id) true).bind fun sl =>
        if sl.1 then .ok (some (target_def_id, sl.2)) else .ok none

/-- The `InternalSubsts::for_item` callback of `translate_orig_substs`,
visiting the target item's parameters in order and threading the `success`
cell.  `success = false` short-circuits every later position to its fallback
argument, so the loop only ever detects total success or failure. -/
def forItemLoop (ctx : TranslationContext) (fuel : Nat)
    (index_map : IndexMap) (target_def_id : DefId)
    (orig_substs : List GenericArg) (params : List GenericParamDef)
    (success : Bool) : FoldResult (Bool × List GenericArg) :=
  match fuel with
  | 0 => .diverge
  | n + 1 =>
    match params with
    | [] => .ok (success, [])
    | d :: rest =>
      match d.kind with
      | .lifetime =>
        let (success', arg) : Bool × GenericArg :=
          if success then
            match lifetimeArgAt orig_substs d.idx with
            | some region =>
              (success, .lifetime (ctx.translate_region region))
            | none =>
              (false, .lifetime (.ReEarlyBound d.def_id d.idx d.name))
          else (success, .lifetime (.ReEarlyBound d.def_id d.idx d.name))
        (forItemLoop ctx n index_map target_def_id orig_substs rest
            success').bind fun sl => .ok (sl.1, arg :: sl.2)
      | .type =>
        if success then
          match typeArgAt orig_substs d.idx with
          | some type_ =>
            (translateArg ctx n index_map (.type type_)).bind fun a =>
              (forItemLoop ctx n index_map target_def_id orig_substs rest
                  success).bind fun sl => .ok (sl.1, a :: sl.2)
          | none =>
            if ctx.id_mapping.is_non_mapped_defaulted_type_param d.def_id then
              (forItemLoop ctx n index_map target_def_id orig_substs rest
                  success).bind fun sl =>
                .ok (sl.1, GenericArg.type (ctx.tcx.type_of d.def_id) :: sl.2)
            else if (ctx.tcx.generics_of target_def_id).has_self
                && (d.idx == 0) then
              (forItemLoop ctx n index_map target_def_id orig_substs rest
                  success).bind fun sl => .ok (sl.1, mk_param_from_def d :: sl.2)
            else
              (forItemLoop ctx n index_map target_def_id orig_substs rest
                  false).bind fun sl => .ok (sl.1, mk_param_from_def d :: sl.2)
        else
          (forItemLoop ctx n index_map target_def_id orig_substs rest
              success).bind fun sl => .ok (sl.1, mk_param_from_def d :: sl.2)
      | .const => .panic .unreachableCode

end

/-- `TranslationContext::translate_item_type`. -/
def TranslationContext.translate_item_type (ctx : TranslationContext)
    (fuel : Nat) (orig_def_id : DefId) (orig : Ty) : FoldResult Ty :=
  translate ctx fuel (ctx.construct_index_map orig_def_id) orig

/-- `rustc_middle::ty::TraitRef`. -/
structure TraitRef where
  def_id : DefId
  substs : List GenericArg

/-- `rustc_middle::ty::PredicateKind` (binder erased; a `Predicate` in the
source wraps one of these in `Binder::dummy`).  `Trait` inlines the
`TraitPredicate` fields (ref, constness, polarity), `Projection` the
`ProjectionPredicate` fields, `ConstEvaluatable` the `Unevaluated` pair. -/
inductive Predicate where
  | Trait (def_id : DefId) (substs : List GenericArg) (constness : Bool)
      (polarity : Bool)
  | RegionOutlives (a b : Region)
  | TypeOutlives (a : Ty) (b : Region)
  | Projection (item_def_id : DefId) (substs : List GenericArg) (term : Term)
  | WellFormed (t : Ty)
  | ObjectSafe (did : DefId)
  | ClosureKind (did : DefId) (substs : List GenericArg) (kind : Nat)
  | Subtype (a_is_expected : Bool) (a b : Ty)
  | Coerce (a b : Ty)
  | ConstEvaluatable (did : DefId) (substs : List GenericArg)
  | ConstEquate (c1 c2 : Konst)
  | TypeWellFormedFromEnv (t : Ty)

/-- `TranslationContext::translate_predicate`: translate one predicate using a
type parameter index map; `None` cancels the whole predicate. -/
def translate_predicate (ctx : TranslationContext) (fuel : Nat)
    (index_map : IndexMap) (predicate : Predicate) :
    FoldResult (Option Predicate) :=
  match fuel with
  | 0 => .diverge
  | n + 1 =>
    match predicate with
    | .Trait trait_def_id trait_substs constness polarity =>
      (translate_orig_substs ctx n index_map trait_def_id trait_substs).bind
        fun r =>
          match r with
          | some (target_def_id, target_substs) =>
            .ok (some (.Trait target_def_id target_substs constness polarity))
          | none => .ok none
    | .RegionOutlives a b =>
      .ok (some (.RegionOutlives (ctx.translate_region a)
        (ctx.translate_region b)))
    | .TypeOutlives a b =>
      (translate ctx n index_map a).bind fun a' =>
        .ok (some (.TypeOutlives a' (ctx.translate_region b)))
    | .Projection item_def_id substs term =>
      (translate_orig_substs ctx n index_map item_def_id substs).bind fun r =>
        match r with
        | some (target_def_id, target_substs) =>
          (match term with
           | .ty t =>
             (translate ctx n index_map t).bind fun t' =>
               .ok (some (.Projection target_def_id target_substs (.ty t')))
           | .const _ =>
             .ok (some (.Projection target_def_id target_substs term)))
        | none => .ok none
    | .WellFormed t =>
      (translate ctx n index_map t).bind fun t' => .ok (some (.WellFormed t'))
    | .ObjectSafe did => .ok (some (.ObjectSafe (ctx.translate_orig did)))
    | .ClosureKind did substs kind =>
      (translateArgs ctx n index_map substs).bind fun s =>
        .ok (some (.ClosureKind (ctx.translate_orig did) s kind))
    | .Subtype a_is_expected a b =>
      (translate ctx n index_map a).bind fun a' =>
        (translate ctx n index_map b).bind fun b' =>
          .ok (some (.Subtype a_is_expected a' b'))
    | .Coerce a b =>
      (translate ctx n index_map a).bind fun a' =>
        (translate ctx n index_map b).bind fun b' =>
          .ok (some (.Coerce a' b'))
    | .ConstEvaluatable uv_did uv_substs =>
      (translate_orig_substs ctx n index_map uv_did uv_substs).bind fun r =>
        match r with
        | some (target_def_id, target_substs) =>
          .ok (some (.ConstEvaluatable target_def_id target_substs))
        | none => .ok none
    | .ConstEquate c1 c2 =>
      -- `ct_op` is the identity, so translating a const returns it unchanged
      .ok (some (.ConstEquate c1 c2))
    | .TypeWellFormedFromEnv _ =>
      -- NOTE: Only used for Chalk trait solver — `unimplemented!()`
      .panic .unimplemented

/-- The `for orig_pred in orig_preds` loop of
`TranslationContext::translate_predicates`: the first untranslatable
predicate makes the whole batch return `None`. -/
def translatePredsLoop (ctx : TranslationContext) (fuel : Nat)
    (index_map : IndexMap) : List Predicate →
    FoldResult (Option (List Predicate))
  | [] => .ok (some [])
  | orig_pred :: rest =>
    (translate_predicate ctx fuel index_map orig_pred).bind fun r =>
      match r with
      | some target_pred =>
        (translatePredsLoop ctx fuel index_map rest).bind fun rr =>
          match rr with
          | some target_preds => .ok (some (target_pred :: target_preds))
          | none => .ok none
      | none => .ok none

/-- `TranslationContext::translate_predicates`. -/
def TranslationContext.translate_predicates (ctx : TranslationContext)
    (fuel : Nat) (orig_def_id : DefId) (orig_preds : List Predicate) :
    FoldResult (Option (List Predicate)) :=
  translatePredsLoop ctx fuel (ctx.construct_index_map orig_def_id) orig_preds

/-- `rustc_middle::ty::ParamEnv` (`reveal` and `constness` opaque). -/
structure ParamEnv where
  caller_bounds : List Predicate
  reveal : Bool
  constness : Bool

/-- `TranslationContext::translate_param_env`. -/
def TranslationContext.translate_param_env (ctx : TranslationContext)
    (fuel : Nat) (orig_def_id : DefId) (param_env : ParamEnv) :
    FoldResult (Option ParamEnv) :=
  (ctx.translate_predicates fuel orig_def_id param_env.caller_bounds).bind
    fun r =>
      match r with
      | some target_preds =>
        .ok (some { caller_bounds := target_preds,
                    reveal := param_env.reveal,
                    constness := param_env.constness })
      | none => .ok none

/-- `TranslationContext::translate_trait_ref`. -/
def TranslationContext.translate_trait_ref (ctx : TranslationContext)
    (fuel : Nat) (orig_def_id : DefId) (orig_trait_ref : TraitRef) :
    FoldResult TraitRef :=
  (translateArgs ctx fuel (ctx.construct_index_map orig_def_id)
      orig_trait_ref.substs).bind fun s =>
    .ok { def_id := ctx.translate_orig orig_trait_ref.def_id, substs := s }

/-! ## The inference cleanup folder

`InferenceCleanupFolder` is an ordinary `TypeFolder` (not fuelled: its
recursion is structural, it consults no mapping and has no failure path).
`fold_ty` super-folds the children and then rewrites the node, `fold_region`
erases regions that still need inference. -/

/-- `InferenceCleanupFolder::fold_region`:
`r.super_fold_with(self)` is the identity on regions, then any region still
needing inference becomes `re_erased`. -/
def icFoldRegion (r : Region) : Region :=
  if r.needs_infer then .ReErased else r

mutual

/-- `InferenceCleanupFolder::fold_ty`. -/
def icFoldTy (ty : Ty) : Ty :=
  let t1 := icSuperFoldTy ty
  match t1 with
  | .Ref region t mutbl =>
    if region.needs_infer then .Ref .ReErased t mutbl
    else .Ref region t mutbl
  | .Infer _ => .TyError
  | other => other

/-- `super_fold_with` for the cleanup folder: fold all children. -/
def icSuperFoldTy (ty : Ty) : Ty :=
  match ty with
  | .Adt did substs => .Adt did (icFoldArgs substs)
  | .Ref region t mutbl => .Ref (icFoldRegion region) (icFoldTy t) mutbl
  | .FnDef did substs => .FnDef did (icFoldArgs substs)
  | .Dynamic preds region => .Dynamic (icFoldExPreds preds) (icFoldRegion region)
  | .Projection item_def_id substs => .Projection item_def_id (icFoldArgs substs)
  | .Opaque did substs => .Opaque did (icFoldArgs substs)
  | leaf => leaf

def icFoldArgs (args : List GenericArg) : List GenericArg :=
  match args with
  | [] => []
  | a :: rest => icFoldArg a :: icFoldArgs rest

def icFoldArg (a : GenericArg) : GenericArg :=
  match a with
  | .lifetime r => .lifetime (icFoldRegion r)
  | .type t => .type (icFoldTy t)
  | .const c => .const c

def icFoldExPreds (preds : List ExistentialPredicate) :
    List ExistentialPredicate :=
  match preds with
  | [] => []
  | p :: rest => icFoldExPred p :: icFoldExPreds rest

def icFoldExPred (p : ExistentialPredicate) : ExistentialPredicate :=
  match p with
  | .Trait def_id substs => .Trait def_id (icFoldArgs substs)
  | .Projection item_def_id substs term =>
    .Projection item_def_id (icFoldArgs substs) (icFoldTerm term)
  | .AutoTrait did => .AutoTrait did

def icFoldTerm (tm : Term) : Term :=
  match tm with
  | .ty t => .ty (icFoldTy t)
  | .const c => .const c

end

/-! ## Concrete fixtures

A small two-crate world used to instantiate the theorems: crate 10 is the
old crate, crate 20 the new one, `exOldAbc ↦ exNewAbc` is the only mapping
and `exUnmappedX` is an old-crate item with no counterpart. -/

def exTcx : TyCtxt := ⟨fun _ => ⟨none, [], false⟩, fun _ => .Prim 0⟩

def exOldAbc : DefId := ⟨10, 1⟩

def exNewAbc : DefId := ⟨20, 1⟩

def exUnmappedX : DefId := ⟨10, 2⟩

def exMapping : IdMapping :=
  { in_old_crate := fun d => d.krate == 10
    in_new_crate := fun d => d.krate == 20
    get_new_id := fun d => if d = exOldAbc then some exNewAbc else none
    get_old_id := fun _ => none
    is_non_mapped_defaulted_type_param := fun _ => false
    get_type_param := fun _ => ⟨.type, 0, ⟨0, 0⟩, 0⟩ }

def exCtx : TranslationContext := .target_new exTcx exMapping true

/-! ## Spec-level predicates -/

/-- An existential predicate whose head identifier has no counterpart in the
mapping (auto-trait markers are never in this situation: they use the
identity fallback). -/
def exPredUnmapped (ctx : TranslationContext) (p : ExistentialPredicate) :
    Prop :=
  match p with
  | .Trait def_id _ => ctx.translate_orig_fn ctx.id_mapping def_id = none
  | .Projection item_def_id _ _ =>
    ctx.translate_orig_fn ctx.id_mapping item_def_id = none
  | .AutoTrait _ => False

/-- A predicate whose translation yields no result (at every fuel at which
it returns at all). -/
def PredFails (ctx : TranslationContext) (index_map : IndexMap)
    (p : Predicate) : Prop :=
  ∀ g r, translate_predicate ctx g index_map p = .ok r → r = none

/-- The per-position success condition of `translate_orig_substs`: the
argument produced for a target parameter `d` is the genuine translation for
that position (positionally aligned, with the documented default/self-type
fallbacks), never a placeholder. -/
def posOk (ctx : TranslationContext) (index_map : IndexMap)
    (target_def_id : DefId) (orig_substs : List GenericArg)
    (d : GenericParamDef) (a : GenericArg) : Prop :=
  match d.kind with
  | .lifetime =>
    ∃ r, lifetimeArgAt orig_substs d.idx = some r ∧
      a = .lifetime (ctx.translate_region r)
  | .type =>
    (∃ t g, typeArgAt orig_substs d.idx = some t ∧
        translateArg ctx g index_map (.type t) = .ok a) ∨
    (typeArgAt orig_substs d.idx = none ∧
      ctx.id_mapping.is_non_mapped_defaulted_type_param d.def_id = true ∧
      a = .type (ctx.tcx.type_of d.def_id)) ∨
    (typeArgAt orig_substs d.idx = none ∧
      ctx.id_mapping.is_non_mapped_defaulted_type_param d.def_id = false ∧
      ((ctx.tcx.generics_of target_def_id).has_self && (d.idx == 0)) = true ∧
      a = mk_param_from_def d)
  | .const => False

/-- The per-position failure condition of `translate_orig_substs`: the
target parameter `d` has no usable argument and no fallback. -/
def posFails (ctx : TranslationContext) (target_def_id : DefId)
    (orig_substs : List GenericArg) (d : GenericParamDef) : Prop :=
  match d.kind with
  | .lifetime => lifetimeArgAt orig_substs d.idx = none
  | .type =>
    typeArgAt orig_substs d.idx = none ∧
    ctx.id_mapping.is_non_mapped_defaulted_type_param d.def_id = false ∧
    ((ctx.tcx.generics_of target_def_id).has_self && (d.idx == 0)) = false
  | .const => False

mutual

/-- The fragment of type expressions built only from nominal types,
references and leaves: no bound type parameters and no
substitution-carrying nodes. -/
def simpleTy : Ty → Bool
  | .Adt _ substs => simpleArgs substs
  | .Ref _ t _ => simpleTy t
  | .Infer _ => true
  | .TyError => true
  | .Prim _ => true
  | _ => false

def simpleArgs : List GenericArg → Bool
  | [] => true
  | a :: rest => simpleArg a && simpleArgs rest

def simpleArg : GenericArg → Bool
  | .lifetime _ => true
  | .const _ => true
  | .type t => simpleTy t

end

/-! ## General lemmas about fold outcomes -/

@[simp] theorem FoldResult.bind_ok {α β : Type} (a : α) (f : α → FoldResult β) :
    FoldResult.bind (.ok a) f = f a := rfl

@[simp] theorem FoldResult.bind_panic {α β : Type} (k : PanicKind)
    (f : α → FoldResult β) : FoldResult.bind (.panic k) f = .panic k := rfl

@[simp] theorem FoldResult.bind_diverge {α β : Type} (f : α → FoldResult β) :
    FoldResult.bind (.diverge) f = .diverge := rfl

/-- Inversion of a successful bind. -/
theorem FoldResult.bind_eq_ok {α β : Type} {r : FoldResult α}
    {f : α → FoldResult β} {b : β} (h : FoldResult.bind r f = .ok b) :
    ∃ a, r = .ok a ∧ f a = .ok b := by
  cases r with
  | ok a => exact ⟨a, rfl, h⟩
  | panic k => simp at h
  | diverge => simp at h

/-- Inversion of a panicking bind. -/
theorem FoldResult.bind_eq_panic {α β : Type} {r : FoldResult α}
    {f : α → FoldResult β} {k : PanicKind}
    (h : FoldResult.bind r f = .panic k) :
    r = .panic k ∨ ∃ a, r = .ok a ∧ f a = .panic k := by
  cases r with
  | ok a => exact Or.inr ⟨a, rfl, h⟩
  | panic k' =>
    simp only [FoldResult.bind_panic, FoldResult.panic.injEq] at h
    exact Or.inl (by rw [h])
  | diverge => simp at h

/-! ## C6: the unsupported environment well-formedness predicate -/

/-- **C6.** For every predicate of the unsupported environment
well-formedness kind (`TypeWellFormedFromEnv`), `translate_predicate` fails
loudly (`unimplemented!()`): it panics at every sufficient fuel, and at no
fuel does it return a translated predicate or pass the predicate through. -/
theorem C6_wf_env_predicate_fails_loudly (ctx : TranslationContext)
    (fuel : Nat) (index_map : IndexMap) (t : Ty) :
    translate_predicate ctx (fuel + 1) index_map (.TypeWellFormedFromEnv t)
      = .panic .unimplemented ∧
    ∀ r, translate_predicate ctx fuel index_map (.TypeWellFormedFromEnv t)
      ≠ .ok r := by
  constructor
  · simp [translate_predicate]
  · intro r h
    match fuel with
    | 0 => simp [translate_predicate] at h
    | n + 1 => simp [translate_predicate] at h

/-- Witness for C6 at the concrete context. -/
theorem C6_witness :
    translate_predicate exCtx 3 [] (.TypeWellFormedFromEnv (.Prim 0))
      = .panic .unimplemented :=
  (C6_wf_env_predicate_fails_loudly exCtx 2 [] (.Prim 0)).1

/-! ## C7: inherent entries -/

/-- **C7.** `translate_inherent_entry` returns `some` exactly when the
owning (parent) identifier has a counterpart in the mapping; the result
carries the translated parent with kind and name unchanged, and an unmapped
parent yields `none`. -/
theorem C7_translate_inherent_entry (ctx : TranslationContext)
    (entry : InherentEntry) :
    (∀ e', ctx.translate_inherent_entry entry = some e' ↔
      (ctx.translate_orig_fn ctx.id_mapping entry.parent_def_id
          = some e'.parent_def_id ∧
        e'.kind = entry.kind ∧ e'.name = entry.name)) ∧
    (ctx.translate_inherent_entry entry = none ↔
      ctx.translate_orig_fn ctx.id_mapping entry.parent_def_id = none) := by
  constructor
  · intro e'
    cases h : ctx.translate_orig_fn ctx.id_mapping entry.parent_def_id with
    | none =>
      simp only [TranslationContext.translate_inherent_entry, h, Option.map_none']
      constructor
      · intro hc; cases hc
      · rintro ⟨hc, -⟩; cases hc
    | some p =>
      simp only [TranslationContext.translate_inherent_entry, h, Option.map_some']
      constructor
      · rintro hc
        cases hc
        exact ⟨rfl, rfl, rfl⟩
      · rintro ⟨h1, h2, h3⟩
        cases e'
        cases h1
        simp_all
  · cases h : ctx.translate_orig_fn ctx.id_mapping entry.parent_def_id <;>
      simp [TranslationContext.translate_inherent_entry, h]

/-- Witness for C7: the spec scenario `(OldAbc, kind, name)` with mapping
`OldAbc -> NewAbc` translates to `(NewAbc, kind, name)`. -/
theorem C7_witness :
    exCtx.translate_inherent_entry ⟨exOldAbc, 1, 7⟩ = some ⟨exNewAbc, 1, 7⟩ :=
  ((C7_translate_inherent_entry exCtx ⟨exOldAbc, 1, 7⟩).1
    ⟨exNewAbc, 1, 7⟩).mpr ⟨rfl, rfl, rfl⟩

/-! ## C8: region translation -/

/-- **C8.** `translate_region` is the identity when parameter translation is
disabled; when enabled, early-bound regions are re-keyed preserving index
and name, free regions re-key their scope (and a `BrNamed` descriptor's
identifier), and every other region kind is unchanged. -/
theorem C8_translate_region (ctx : TranslationContext) :
    (ctx.translate_params = false → ∀ r, ctx.translate_region r = r) ∧
    (ctx.translate_params = true →
      (∀ did i nm, ctx.translate_region (.ReEarlyBound did i nm)
          = .ReEarlyBound (ctx.translate_orig did) i nm) ∧
      (∀ scope did nm, ctx.translate_region (.ReFree scope (.BrNamed did nm))
          = .ReFree (ctx.translate_orig scope)
              (.BrNamed (ctx.translate_orig did) nm)) ∧
      (∀ scope n, ctx.translate_region (.ReFree scope (.BrAnon n))
          = .ReFree (ctx.translate_orig scope) (.BrAnon n)) ∧
      (∀ scope, ctx.translate_region (.ReFree scope .BrEnv)
          = .ReFree (ctx.translate_orig scope) .BrEnv) ∧
      ctx.translate_region .ReStatic = .ReStatic ∧
      ctx.translate_region .ReErased = .ReErased ∧
      (∀ v, ctx.translate_region (.ReVar v) = .ReVar v)) := by
  constructor
  · intro h r
    simp [TranslationContext.translate_region, h]
  · intro h
    refine ⟨?_, ?_, ?_, ?_, ?_, ?_, ?_⟩ <;>
      simp [TranslationContext.translate_region, h]

/-- Witness for C8 at the concrete context (translation enabled,
early-bound region re-keyed in place). -/
theorem C8_witness :
    exCtx.translate_region (.ReEarlyBound exOldAbc 2 5)
      = .ReEarlyBound (exCtx.translate_orig exOldAbc) 2 5 :=
  ((C8_translate_region exCtx).2 rfl).1 exOldAbc 2 5

/-! ## C9: the inference cleanup folder -/

/-- `icFoldRegion` never returns a region that still needs inference. -/
theorem icFoldRegion_needs_infer (r : Region) :
    (icFoldRegion r).needs_infer = false := by
  cases r <;> simp [icFoldRegion, Region.needs_infer]

/-- **C9.** The inference cleanup folder is total (a plain function with no
failure outcome): a reference keeps its shape while an unresolved-inference
region becomes the erased region, an unresolved inference type node becomes
the type-error sentinel, regions needing inference are erased, and every
other node is rebuilt unchanged around its folded children. -/
theorem C9_inference_cleanup :
    (∀ r t m, icFoldTy (.Ref r t m) = .Ref (icFoldRegion r) (icFoldTy t) m) ∧
    (∀ v t m, icFoldTy (.Ref (.ReVar v) t m)
        = .Ref .ReErased (icFoldTy t) m) ∧
    (∀ v, icFoldTy (.Infer v) = .TyError) ∧
    (∀ r, icFoldRegion r = if r.needs_infer then .ReErased else r) ∧
    (∀ d s, icFoldTy (.Adt d s) = .Adt d (icFoldArgs s)) ∧
    (∀ d s, icFoldTy (.FnDef d s) = .FnDef d (icFoldArgs s)) ∧
    (∀ ps r, icFoldTy (.Dynamic ps r)
        = .Dynamic (icFoldExPreds ps) (icFoldRegion r)) ∧
    (∀ d s, icFoldTy (.Projection d s) = .Projection d (icFoldArgs s)) ∧
    (∀ d s, icFoldTy (.Opaque d s) = .Opaque d (icFoldArgs s)) ∧
    (∀ i nm, icFoldTy (.Param i nm) = .Param i nm) ∧
    icFoldTy .TyError = .TyError ∧
    (∀ c, icFoldTy (.Prim c) = .Prim c) := by
  refine ⟨?_, ?_, ?_, ?_, ?_, ?_, ?_, ?_, ?_, ?_, ?_, ?_⟩
  · intro r t m
    simp [icFoldTy, icSuperFoldTy, icFoldRegion_needs_infer]
  · intro v t m
    simp [icFoldTy, icSuperFoldTy, icFoldRegion_needs_infer, icFoldRegion,
      Region.needs_infer]
  · intro v
    simp [icFoldTy, icSuperFoldTy]
  · intro r
    simp [icFoldRegion]
  all_goals intros; simp [icFoldTy, icSuperFoldTy]

/-- Witness for C9: a reference under an unresolved region is rewritten to
an erased-region reference around the folded pointee. -/
theorem C9_witness :
    icFoldTy (.Ref (.ReVar 7) (.Infer 3) true)
      = .Ref .ReErased (icFoldTy (.Infer 3)) true :=
  C9_inference_cleanup.2.1 7 (.Infer 3) true

/-! ## C1: trait objects -/

/-- `translate_orig_substs` on an unmapped identifier reports "no
translation". -/
theorem translate_orig_substs_unmapped (ctx : TranslationContext) (fuel : Nat)
    (index_map : IndexMap) (did : DefId) (substs : List GenericArg)
    (h : ctx.translate_orig_fn ctx.id_mapping did = none) :
    translate_orig_substs ctx (fuel + 1) index_map did substs = .ok none := by
  simp [translate_orig_substs, h]

/-- An unmapped identifier never yields a successful substitution
translation, at any fuel. -/
theorem translate_orig_substs_unmapped_not_some (ctx : TranslationContext)
    (fuel : Nat) (index_map : IndexMap) (did : DefId)
    (substs : List GenericArg) (x : DefId × List GenericArg)
    (h : ctx.translate_orig_fn ctx.id_mapping did = none) :
    translate_orig_substs ctx fuel index_map did substs ≠ .ok (some x) := by
  match fuel with
  | 0 => simp [translate_orig_substs]
  | n + 1 => rw [translate_orig_substs_unmapped ctx n index_map did substs h]; simp

/-- Behaviour of the `Dynamic` predicate loop: the success flag is monotone
(it can only be cleared), the output list has the input's length, and any
existential predicate with an unmapped head identifier clears the flag. -/
theorem dynPredsLoop_spec (ctx : TranslationContext) (index_map : IndexMap)
    (whole : Ty) :
    ∀ (ps : List ExistentialPredicate) (fuel : Nat) (b s : Bool)
      (l : List ExistentialPredicate),
      dynPredsLoop ctx fuel index_map whole ps b = .ok (s, l) →
      (s = true → b = true) ∧ l.length = ps.length ∧
      (∀ p ∈ ps, exPredUnmapped ctx p → s = false) := by
  intro ps
  induction ps with
  | nil =>
    intro fuel b s l h
    match fuel with
    | 0 => simp [dynPredsLoop] at h
    | n + 1 =>
      simp only [dynPredsLoop] at h
      cases h
      exact ⟨fun hh => hh, rfl, by simp⟩
  | cons q rest ih =>
    intro fuel b s l h
    match fuel with
    | 0 => simp [dynPredsLoop] at h
    | n + 1 =>
      simp only [dynPredsLoop] at h
      cases q with
      | Trait qdid qsubsts =>
        obtain ⟨r, htos, h2⟩ := FoldResult.bind_eq_ok h
        cases r with
        | none =>
          simp only at h2
          obtain ⟨sl, hloop, h3⟩ := FoldResult.bind_eq_ok h2
          obtain ⟨s2, l2⟩ := sl
          cases h3
          obtain ⟨hmono, hlen, -⟩ := ih n false s2 l2 hloop
          have hs2 : s2 = false := by
            cases s2 with
            | true => exact absurd (hmono rfl) (by simp)
            | false => rfl
          subst hs2
          exact ⟨by simp, by simp [hlen], fun p hp hu => rfl⟩
        | some pr =>
          obtain ⟨tdid, tsubsts⟩ := pr
          simp only at h2
          obtain ⟨sl, hloop, h3⟩ := FoldResult.bind_eq_ok h2
          obtain ⟨s2, l2⟩ := sl
          cases h3
          obtain ⟨hmono, hlen, hfail⟩ := ih n b s2 l2 hloop
          refine ⟨hmono, by simp [hlen], fun p hp hu => ?_⟩
          rcases List.mem_cons.mp hp with hq | hrest
          · subst hq
            exact absurd htos
              (translate_orig_substs_unmapped_not_some ctx n index_map qdid
                _ _ hu)
          · exact hfail p hrest hu
      | Projection qdid qsubsts qterm =>
        obtain ⟨r, htos, h2⟩ := FoldResult.bind_eq_ok h
        cases r with
        | none =>
          simp only at h2
          obtain ⟨sl, hloop, h3⟩ := FoldResult.bind_eq_ok h2
          obtain ⟨s2, l2⟩ := sl
          cases h3
          obtain ⟨hmono, hlen, -⟩ := ih n false s2 l2 hloop
          have hs2 : s2 = false := by
            cases s2 with
            | true => exact absurd (hmono rfl) (by simp)
            | false => rfl
          subst hs2
          exact ⟨by simp, by simp [hlen], fun p hp hu => rfl⟩
        | some pr =>
          obtain ⟨tdid, tsubsts⟩ := pr
          simp only at h2
          obtain ⟨sl, hloop, h3⟩ := FoldResult.bind_eq_ok h2
          obtain ⟨s2, l2⟩ := sl
          cases h3
          obtain ⟨hmono, hlen, hfail⟩ := ih n b s2 l2 hloop
          refine ⟨hmono, by simp [hlen], fun p hp hu => ?_⟩
          rcases List.mem_cons.mp hp with hq | hrest
          · subst hq
            exact absurd htos
              (translate_orig_substs_unmapped_not_some ctx n index_map qdid
                _ _ hu)
          · exact hfail p hrest hu
      | AutoTrait qdid =>
        obtain ⟨sl, hloop, h3⟩ := FoldResult.bind_eq_ok h
        obtain ⟨s2, l2⟩ := sl
        cases h3
        obtain ⟨hmono, hlen, hfail⟩ := ih n b s2 l2 hloop
        refine ⟨hmono, by simp [hlen], fun p hp hu => ?_⟩
        rcases List.mem_cons.mp hp with hq | hrest
        · subst hq
          exact absurd hu (by simp [exPredUnmapped])
        · exact hfail p hrest hu

/-- **C1 (amended).** When any existential predicate of a trait-object type
has an unmapped head identifier, the node operation returns the
(children-folded) trait-object node *unchanged* — the internally built
sentinel predicate is discarded together with the rest of the rebuilt list;
and a successful outcome is always a trait-object node over the same region
with exactly as many predicates as the input (never a shortened list). -/
theorem C1_trait_object_failure (ctx : TranslationContext) (fuel : Nat)
    (index_map : IndexMap) (preds : List ExistentialPredicate)
    (region : Region) (res : Ty)
    (h : ty_op ctx fuel index_map (.Dynamic preds region) = .ok res) :
    (∃ l, res = .Dynamic l region ∧ l.length = preds.length) ∧
    (∀ p ∈ preds, exPredUnmapped ctx p → res = .Dynamic preds region) := by
  match fuel with
  | 0 => simp [ty_op] at h
  | n + 1 =>
    simp only [ty_op] at h
    obtain ⟨sl, hloop, h2⟩ := FoldResult.bind_eq_ok h
    obtain ⟨s2, l2⟩ := sl
    obtain ⟨hmono, hlen, hfail⟩ :=
      dynPredsLoop_spec ctx index_map (.Dynamic preds region) preds n true
        s2 l2 hloop
    cases s2 with
    | true =>
      simp only [if_true] at h2
      cases h2
      exact ⟨⟨l2, rfl, hlen⟩,
        fun p hp hu => absurd (hfail p hp hu) (by simp)⟩
    | false =>
      simp only [if_false] at h2
      cases h2
      exact ⟨⟨preds, rfl, rfl⟩, fun _ _ _ => rfl⟩

/-- Counterexample to C1 as stated: a trait-object type with one existential
predicate whose identifier is unmapped is returned *unchanged* by the
folder — the predicate list still contains the untranslated trait bound, not
the reserved "unrepresentable" auto-trait sentinel. -/
theorem C1_counterexample :
    translate exCtx 10 [] (.Dynamic [.Trait exUnmappedX []] .ReStatic)
      = .ok (.Dynamic [.Trait exUnmappedX []] .ReStatic) := rfl

/-- Witness for C1 at the concrete context: the failing trait-object node is
returned unchanged. -/
theorem C1_witness :
    (Ty.Dynamic [.Trait exUnmappedX []] .ReStatic)
      = .Dynamic [.Trait exUnmappedX []] .ReStatic :=
  (C1_trait_object_failure exCtx 9 [] [.Trait exUnmappedX []] .ReStatic
      (.Dynamic [.Trait exUnmappedX []] .ReStatic) rfl).2
    (.Trait exUnmappedX []) (List.mem_singleton.mpr rfl) rfl

/-! ## C5: nominal types -/

/-- **C5.** Folding a nominal type first folds the children; the node
operation then translates only the head identifier and reuses the folded
argument list verbatim, and leaves the whole node unchanged when the
identifier is unmapped (or needs no translation). -/
theorem C5_adt_head_identifier_only (ctx : TranslationContext) (fuel : Nat)
    (index_map : IndexMap) (did : DefId) (substs : List GenericArg)
    (res : Ty)
    (h : translate ctx (fuel + 1) index_map (.Adt did substs) = .ok res) :
    ∃ substs', translateArgs ctx fuel index_map substs = .ok substs' ∧
      (ctx.needs_translation did = true →
        (∀ tid, ctx.translate_orig_fn ctx.id_mapping did = some tid →
          res = .Adt tid substs') ∧
        (ctx.translate_orig_fn ctx.id_mapping did = none →
          res = .Adt did substs')) ∧
      (ctx.needs_translation did = false → res = .Adt did substs') := by
  simp only [translate] at h
  obtain ⟨t1, ht1, hop⟩ := FoldResult.bind_eq_ok h
  obtain ⟨substs', hargs, ht1'⟩ := FoldResult.bind_eq_ok ht1
  cases ht1'
  refine ⟨substs', hargs, ?_, ?_⟩
  · intro hneed
    match fuel with
    | 0 => simp [ty_op] at hop
    | n + 1 =>
      constructor
      · intro tid htid
        simp only [ty_op, hneed, htid, if_true] at hop
        cases hop
        rfl
      · intro hnone
        simp only [ty_op, hneed, hnone, if_true] at hop
        cases hop
        rfl
  · intro hneed
    match fuel with
    | 0 => simp [ty_op] at hop
    | n + 1 =>
      simp only [ty_op, hneed] at hop
      cases hop
      rfl

/-- Witness for C5, realising the spec scenario: with only
`exOldAbc ↦ exNewAbc` mapped, `OldAbc<UnmappedX>` folds to
`NewAbc<UnmappedX>` with the inner type untouched. -/
theorem C5_witness :
    ∃ substs', translateArgs exCtx 9 []
        [.type (.Adt exUnmappedX [])] = .ok substs' ∧
      (exCtx.needs_translation exOldAbc = true →
        (∀ tid, exCtx.translate_orig_fn exCtx.id_mapping exOldAbc = some tid →
          (Ty.Adt exNewAbc [.type (.Adt exUnmappedX [])]) = .Adt tid substs') ∧
        (exCtx.translate_orig_fn exCtx.id_mapping exOldAbc = none →
          (Ty.Adt exNewAbc [.type (.Adt exUnmappedX [])]) = .Adt exOldAbc substs')) ∧
      (exCtx.needs_translation exOldAbc = false →
        (Ty.Adt exNewAbc [.type (.Adt exUnmappedX [])]) = .Adt exOldAbc substs') :=
  C5_adt_head_identifier_only exCtx 9 [] exOldAbc
    [.type (.Adt exUnmappedX [])] (.Adt exNewAbc [.type (.Adt exUnmappedX [])])
    rfl

/-! ## C2: all-or-nothing substitution translation -/

/-- Behaviour of the `for_item` parameter loop: the success flag is
monotone, the output is positionally aligned with the target's parameter
list, any parameter with no usable argument and no fallback clears the
flag, and a run that starts and ends successful produced the genuine
translation at every position. -/
theorem forItemLoop_spec (ctx : TranslationContext) (index_map : IndexMap)
    (target_def_id : DefId) (orig_substs : List GenericArg) :
    ∀ (ps : List GenericParamDef) (fuel : Nat) (b s : Bool)
      (l : List GenericArg),
      forItemLoop ctx fuel index_map target_def_id orig_substs ps b
        = .ok (s, l) →
      (s = true → b = true) ∧ l.length = ps.length ∧
      (∀ d ∈ ps, posFails ctx target_def_id orig_substs d → s = false) ∧
      (b = true → s = true →
        ∀ i d a, ps.get? i = some d → l.get? i = some a →
          posOk ctx index_map target_def_id orig_substs d a) := by
  intro ps
  induction ps with
  | nil =>
    intro fuel b s l h
    match fuel with
    | 0 => simp [forItemLoop] at h
    | n + 1 =>
      simp only [forItemLoop] at h
      cases h
      refine ⟨fun hh => hh, rfl, by simp, ?_⟩
      intro _ _ i d a hd _
      simp at hd
  | cons d rest ih =>
    intro fuel b s l h
    match fuel with
    | 0 => simp [forItemLoop] at h
    | n + 1 =>
      obtain ⟨dk, didx, ddefid, dname⟩ := d
      cases dk with
      | const =>
        simp only [forItemLoop] at h
        cases h
      | lifetime =>
        cases b with
        | false =>
          simp only [forItemLoop, Bool.false_eq_true, if_false] at h
          obtain ⟨sl, hloop, h3⟩ := FoldResult.bind_eq_ok h
          obtain ⟨s2, l2⟩ := sl
          cases h3
          obtain ⟨hmono, hlen, -, -⟩ := ih n false s2 l2 hloop
          have hs2 : s2 = false := by
            cases s2 with
            | true => exact absurd (hmono rfl) (by simp)
            | false => rfl
          subst hs2
          exact ⟨by simp, by simp [hlen], fun _ _ _ => rfl, by simp⟩
        | true =>
          cases hget : lifetimeArgAt orig_substs didx with
          | some region =>
            simp only [forItemLoop, hget, if_true] at h
            obtain ⟨sl, hloop, h3⟩ := FoldResult.bind_eq_ok h
            obtain ⟨s2, l2⟩ := sl
            cases h3
            obtain ⟨hmono, hlen, hfailr, hokr⟩ := ih n true s2 l2 hloop
            refine ⟨fun _ => rfl, by simp [hlen], ?_, ?_⟩
            · intro d' hd' hpf
              rcases List.mem_cons.mp hd' with hdq | hdrest
              · subst hdq
                simp [posFails, hget] at hpf
              · exact hfailr d' hdrest hpf
            · intro _ hs i d' a' hd' ha'
              match i with
              | 0 =>
                cases hd'
                cases ha'
                exact ⟨region, hget, rfl⟩
              | i + 1 => exact hokr rfl hs i d' a' hd' ha'
          | none =>
            simp only [forItemLoop, hget, if_true] at h
            obtain ⟨sl, hloop, h3⟩ := FoldResult.bind_eq_ok h
            obtain ⟨s2, l2⟩ := sl
            cases h3
            obtain ⟨hmono, hlen, -, -⟩ := ih n false s2 l2 hloop
            have hs2 : s2 = false := by
              cases s2 with
              | true => exact absurd (hmono rfl) (by simp)
              | false => rfl
            subst hs2
            exact ⟨by simp, by simp [hlen], fun _ _ _ => rfl, by simp⟩
      | type =>
        cases b with
        | false =>
          simp only [forItemLoop, Bool.false_eq_true, if_false] at h
          obtain ⟨sl, hloop, h3⟩ := FoldResult.bind_eq_ok h
          obtain ⟨s2, l2⟩ := sl
          cases h3
          obtain ⟨hmono, hlen, -, -⟩ := ih n false s2 l2 hloop
          have hs2 : s2 = false := by
            cases s2 with
            | true => exact absurd (hmono rfl) (by simp)
            | false => rfl
          subst hs2
          exact ⟨by simp, by simp [hlen], fun _ _ _ => rfl, by simp⟩
        | true =>
          cases hget : typeArgAt orig_substs didx with
          | some t =>
            simp only [forItemLoop, hget, if_true] at h
            obtain ⟨a, harg, h2⟩ := FoldResult.bind_eq_ok h
            obtain ⟨sl, hloop, h3⟩ := FoldResult.bind_eq_ok h2
            obtain ⟨s2, l2⟩ := sl
            cases h3
            obtain ⟨hmono, hlen, hfailr, hokr⟩ := ih n true s2 l2 hloop
            refine ⟨fun _ => rfl, by simp [hlen], ?_, ?_⟩
            · intro d' hd' hpf
              rcases List.mem_cons.mp hd' with hdq | hdrest
              · subst hdq
                simp [posFails, hget] at hpf
              · exact hfailr d' hdrest hpf
            · intro _ hs i d' a' hd' ha'
              match i with
              | 0 =>
                cases hd'
                cases ha'
                exact Or.inl ⟨t, n, hget, harg⟩
              | i + 1 => exact hokr rfl hs i d' a' hd' ha'
          | none =>
            cases hdef : ctx.id_mapping.is_non_mapped_defaulted_type_param
                ddefid with
            | true =>
              simp only [forItemLoop, hget, hdef, if_true] at h
              obtain ⟨sl, hloop, h3⟩ := FoldResult.bind_eq_ok h
              obtain ⟨s2, l2⟩ := sl
              cases h3
              obtain ⟨hmono, hlen, hfailr, hokr⟩ := ih n true s2 l2 hloop
              refine ⟨fun _ => rfl, by simp [hlen], ?_, ?_⟩
              · intro d' hd' hpf
                rcases List.mem_cons.mp hd' with hdq | hdrest
                · subst hdq
                  simp [posFails, hget, hdef] at hpf
                · exact hfailr d' hdrest hpf
              · intro _ hs i d' a' hd' ha'
                match i with
                | 0 =>
                  cases hd'
                  cases ha'
                  exact Or.inr (Or.inl ⟨hget, hdef, rfl⟩)
                | i + 1 => exact hokr rfl hs i d' a' hd' ha'
            | false =>
              cases hself : (ctx.tcx.generics_of target_def_id).has_self
                  && (didx == 0) with
              | true =>
                simp only [forItemLoop, hget, hdef, hself, Bool.false_eq_true,
                  if_false, if_true] at h
                obtain ⟨sl, hloop, h3⟩ := FoldResult.bind_eq_ok h
                obtain ⟨s2, l2⟩ := sl
                cases h3
                obtain ⟨hmono, hlen, hfailr, hokr⟩ := ih n true s2 l2 hloop
                refine ⟨fun _ => rfl, by simp [hlen], ?_, ?_⟩
                · intro d' hd' hpf
                  rcases List.mem_cons.mp hd' with hdq | hdrest
                  · subst hdq
                    simp [posFails, hget, hdef, hself] at hpf
                  · exact hfailr d' hdrest hpf
                · intro _ hs i d' a' hd' ha'
                  match i with
                  | 0 =>
                    cases hd'
                    cases ha'
                    exact Or.inr (Or.inr ⟨hget, hdef, hself, rfl⟩)
                  | i + 1 => exact hokr rfl hs i d' a' hd' ha'
              | false =>
                simp only [forItemLoop, hget, hdef, hself, Bool.false_eq_true,
                  if_false, if_true] at h
                obtain ⟨sl, hloop, h3⟩ := FoldResult.bind_eq_ok h
                obtain ⟨s2, l2⟩ := sl
                cases h3
                obtain ⟨hmono, hlen, -, -⟩ := ih n false s2 l2 hloop
                have hs2 : s2 = false := by
                  cases s2 with
                  | true => exact absurd (hmono rfl) (by simp)
                  | false => rfl
                subst hs2
                exact ⟨by simp, by simp [hlen], fun _ _ _ => rfl, by simp⟩

/-- **C2.** `translate_orig_substs` is all-or-nothing: an unmapped
identifier, or a failure at any target parameter position, makes the call
return `none` — never a partially translated list; on success it returns
the target identifier together with an argument list positionally aligned
with the target item's own parameter list, with the genuine per-position
translation at every index. -/
theorem C2_translate_orig_substs_all_or_nothing (ctx : TranslationContext)
    (fuel : Nat) (index_map : IndexMap) (orig_def_id : DefId)
    (orig_substs : List GenericArg) (res : Option (DefId × List GenericArg))
    (h : translate_orig_substs ctx fuel index_map orig_def_id orig_substs
      = .ok res) :
    (ctx.translate_orig_fn ctx.id_mapping orig_def_id = none → res = none) ∧
    (∀ tid, ctx.translate_orig_fn ctx.id_mapping orig_def_id = some tid →
      ((∃ d ∈ allParams ctx.tcx tid,
          posFails ctx tid orig_substs d) → res = none) ∧
      (∀ tid' l, res = some (tid', l) →
        tid' = tid ∧ l.length = (allParams ctx.tcx tid).length ∧
        ∀ i d a, (allParams ctx.tcx tid).get? i = some d →
          l.get? i = some a →
          posOk ctx index_map tid orig_substs d a)) := by
  match fuel with
  | 0 => simp [translate_orig_substs] at h
  | n + 1 =>
    simp only [translate_orig_substs] at h
    cases hmap : ctx.translate_orig_fn ctx.id_mapping orig_def_id with
    | none =>
      rw [hmap] at h
      cases h
      exact ⟨fun _ => rfl, fun tid htid => absurd htid (by simp)⟩
    | some tid0 =>
      rw [hmap] at h
      obtain ⟨sl, hloop, h2⟩ := FoldResult.bind_eq_ok h
      obtain ⟨s2, l2⟩ := sl
      obtain ⟨hmono, hlen, hfail, hok⟩ :=
        forItemLoop_spec ctx index_map tid0 orig_substs
          (allParams ctx.tcx tid0) n true s2 l2 hloop
      refine ⟨fun hc => absurd hc (by simp), ?_⟩
      intro tid htid
      cases htid
      constructor
      · rintro ⟨d, hd, hpf⟩
        have hs2 : s2 = false := hfail d hd hpf
        subst hs2
        simp only [if_false] at h2
        cases h2
        rfl
      · intro tid' l hres
        cases s2 with
        | false =>
          simp only [if_false] at h2
          cases h2
          cases hres
        | true =>
          simp only [if_true] at h2
          cases h2
          cases hres
          exact ⟨rfl, hlen, hok rfl rfl⟩

/-! ### Fixtures with generic parameters (for C2) -/

def exLifetimeParam : GenericParamDef := ⟨.lifetime, 0, ⟨20, 30⟩, 3⟩

def exTypeParam : GenericParamDef := ⟨.type, 1, ⟨20, 31⟩, 4⟩

def exOldFn : DefId := ⟨10, 5⟩

def exNewFn : DefId := ⟨20, 5⟩

def exTcx2 : TyCtxt :=
  ⟨fun d =>
    if d = exNewFn then ⟨none, [exLifetimeParam, exTypeParam], false⟩
    else ⟨none, [], false⟩,
   fun _ => .Prim 0⟩

def exMapping2 : IdMapping :=
  { in_old_crate := fun d => d.krate == 10
    in_new_crate := fun d => d.krate == 20
    get_new_id := fun d => if d = exOldFn then some exNewFn else none
    get_old_id := fun _ => none
    is_non_mapped_defaulted_type_param := fun _ => false
    get_type_param := fun _ => ⟨.type, 0, ⟨0, 0⟩, 0⟩ }

def exCtx2 : TranslationContext := .target_new exTcx2 exMapping2 true

/-- Witness for C2: translating `exOldFn`'s substitution (a lifetime and a
type) against the mapped target succeeds with a positionally aligned,
fully translated argument list. -/
theorem C2_witness :
    exNewFn = exNewFn ∧
      List.length [GenericArg.lifetime .ReStatic, GenericArg.type (.Prim 7)]
        = (allParams exCtx2.tcx exNewFn).length ∧
      ∀ i d a, (allParams exCtx2.tcx exNewFn).get? i = some d →
        [GenericArg.lifetime .ReStatic, GenericArg.type (.Prim 7)].get? i
          = some a →
        posOk exCtx2 [] exNewFn
          [GenericArg.lifetime .ReStatic, GenericArg.type (.Prim 7)] d a :=
  ((C2_translate_orig_substs_all_or_nothing exCtx2 10 [] exOldFn
      [GenericArg.lifetime .ReStatic, GenericArg.type (.Prim 7)]
      (some (exNewFn,
        [GenericArg.lifetime .ReStatic, GenericArg.type (.Prim 7)]))
      rfl).2 exNewFn rfl).2 exNewFn
    [GenericArg.lifetime .ReStatic, GenericArg.type (.Prim 7)] rfl

/-! ## C3: predicate batches -/

/-- Behaviour of the predicate-list loop: any single failing predicate makes
the batch yield `none`; a `some` result has the input's length and is the
in-order element-wise translation; and if every predicate translates, the
result is a `some`. -/
theorem translatePredsLoop_spec (ctx : TranslationContext) (fuel : Nat)
    (index_map : IndexMap) :
    ∀ (ps : List Predicate) (res : Option (List Predicate)),
      translatePredsLoop ctx fuel index_map ps = .ok res →
      ((∃ p ∈ ps, PredFails ctx index_map p) → res = none) ∧
      (∀ l, res = some l → l.length = ps.length ∧
        ∀ i p, ps.get? i = some p →
          ∃ a, l.get? i = some a ∧
            translate_predicate ctx fuel index_map p = .ok (some a)) ∧
      ((∀ p ∈ ps, ∃ a, translate_predicate ctx fuel index_map p
          = .ok (some a)) → ∃ l, res = some l) := by
  intro ps
  induction ps with
  | nil =>
    intro res h
    simp only [translatePredsLoop] at h
    cases h
    refine ⟨by simp, ?_, fun _ => ⟨[], rfl⟩⟩
    intro l hl
    cases hl
    exact ⟨rfl, by simp⟩
  | cons q rest ih =>
    intro res h
    simp only [translatePredsLoop] at h
    obtain ⟨r, hq, h2⟩ := FoldResult.bind_eq_ok h
    cases r with
    | none =>
      cases h2
      refine ⟨fun _ => rfl, by simp, ?_⟩
      intro hall
      obtain ⟨a, ha⟩ := hall q (List.mem_cons_self q rest)
      rw [hq] at ha
      cases ha
    | some tq =>
      obtain ⟨rr, hrest, h3⟩ := FoldResult.bind_eq_ok h2
      obtain ⟨ihf, ihs, ihall⟩ := ih rr hrest
      cases rr with
      | none =>
        cases h3
        refine ⟨fun _ => rfl, by simp, ?_⟩
        intro hall
        obtain ⟨l, hl⟩ := ihall fun p hp => hall p (List.mem_cons_of_mem q hp)
        cases hl
      | some tl =>
        cases h3
        refine ⟨?_, ?_, fun _ => ⟨tq :: tl, rfl⟩⟩
        · rintro ⟨p, hp, hfails⟩
          rcases List.mem_cons.mp hp with hpq | hprest
          · subst hpq
            exact absurd (hfails fuel (some tq) hq) (by simp)
          · exact absurd (ihf ⟨p, hprest, hfails⟩) (by simp)
        · intro l hl
          cases hl
          obtain ⟨hlen, hget⟩ := ihs tl rfl
          refine ⟨by simp [hlen], ?_⟩
          intro i p hip
          match i with
          | 0 =>
            cases hip
            exact ⟨tq, rfl, hq⟩
          | i + 1 => exact hget i p hip

/-- **C3.** `translate_predicates` (and hence `translate_param_env`) is
all-or-nothing over a predicate list: one failing predicate yields `none`
(never a shorter list); when every predicate translates the result is the
`some` of the in-order, same-length element-wise translation. -/
theorem C3_predicate_list_all_or_nothing (ctx : TranslationContext)
    (fuel : Nat) (orig_def_id : DefId) :
    (∀ (orig_preds : List Predicate) res,
      ctx.translate_predicates fuel orig_def_id orig_preds = .ok res →
      ((∃ p ∈ orig_preds,
          PredFails ctx (ctx.construct_index_map orig_def_id) p) →
        res = none) ∧
      (∀ l, res = some l → l.length = orig_preds.length ∧
        ∀ i p, orig_preds.get? i = some p →
          ∃ a, l.get? i = some a ∧
            translate_predicate ctx fuel
              (ctx.construct_index_map orig_def_id) p = .ok (some a)) ∧
      ((∀ p ∈ orig_preds, ∃ a, translate_predicate ctx fuel
          (ctx.construct_index_map orig_def_id) p = .ok (some a)) →
        ∃ l, res = some l)) ∧
    (∀ (param_env : ParamEnv) r,
      ctx.translate_param_env fuel orig_def_id param_env = .ok r →
      ((∃ p ∈ param_env.caller_bounds,
          PredFails ctx (ctx.construct_index_map orig_def_id) p) →
        r = none) ∧
      (∀ pe, r = some pe →
        pe.caller_bounds.length = param_env.caller_bounds.length)) := by
  constructor
  · intro orig_preds res h
    exact translatePredsLoop_spec ctx fuel
      (ctx.construct_index_map orig_def_id) orig_preds res h
  · intro param_env r h
    rw [TranslationContext.translate_param_env] at h
    obtain ⟨rr, hpreds, h2⟩ := FoldResult.bind_eq_ok h
    obtain ⟨hf, hs, -⟩ := translatePredsLoop_spec ctx fuel
      (ctx.construct_index_map orig_def_id) param_env.caller_bounds rr hpreds
    cases rr with
    | none =>
      cases h2
      exact ⟨fun _ => rfl, by simp⟩
    | some tl =>
      cases h2
      refine ⟨fun hex => absurd (hf hex) (by simp), ?_⟩
      intro pe hpe
      cases hpe
      exact (hs tl rfl).1

/-- Witness for C3 at a concrete successful batch: an object-safety
predicate translates to its re-keyed counterpart, with length and order
preserved. -/
theorem C3_witness :
    List.length [Predicate.ObjectSafe exNewAbc]
        = List.length [Predicate.ObjectSafe exOldAbc] ∧
      ∀ i p, [Predicate.ObjectSafe exOldAbc].get? i = some p →
        ∃ a, [Predicate.ObjectSafe exNewAbc].get? i = some a ∧
          translate_predicate exCtx 3
            (exCtx.construct_index_map (DefId.local 3)) p = .ok (some a) :=
  (((C3_predicate_list_all_or_nothing exCtx 3 (DefId.local 3)).1
      [Predicate.ObjectSafe exOldAbc] (some [Predicate.ObjectSafe exNewAbc])
      rfl).2.1 [Predicate.ObjectSafe exNewAbc] rfl)

/-! ## C4: best-effort translation of item types -/

/-- On the simple fragment (nominal types, references, leaves) the node
operation never panics and preserves the fragment. -/
theorem ty_op_simple (ctx : TranslationContext) (fuel : Nat)
    (index_map : IndexMap) :
    ∀ t, simpleTy t = true →
      (∀ k, ty_op ctx fuel index_map t ≠ .panic k) ∧
      (∀ t', ty_op ctx fuel index_map t = .ok t' → simpleTy t' = true) := by
  intro t hs
  match fuel with
  | 0 => exact ⟨by simp [ty_op], by simp [ty_op]⟩
  | n + 1 =>
    cases t with
    | Adt did substs =>
      have hsubsts : simpleArgs substs = true := by simpa [simpleTy] using hs
      cases hneed : ctx.needs_translation did with
      | false =>
        constructor
        · intro k hk
          simp [ty_op, hneed] at hk
        · intro t' ht'
          simp only [ty_op, hneed, Bool.false_eq_true, if_false] at ht'
          cases ht'
          simpa [simpleTy] using hsubsts
      | true =>
        cases hl : ctx.translate_orig_fn ctx.id_mapping did with
        | none =>
          constructor
          · intro k hk
            simp [ty_op, hneed, hl] at hk
          · intro t' ht'
            simp only [ty_op, hneed, hl, if_true] at ht'
            cases ht'
            simpa [simpleTy] using hsubsts
        | some tid =>
          constructor
          · intro k hk
            simp [ty_op, hneed, hl] at hk
          · intro t' ht'
            simp only [ty_op, hneed, hl, if_true] at ht'
            cases ht'
            simpa [simpleTy] using hsubsts
    | Ref r t0 m =>
      have ht0 : simpleTy t0 = true := by simpa [simpleTy] using hs
      constructor
      · intro k hk
        simp [ty_op] at hk
      · intro t' ht'
        simp only [ty_op] at ht'
        cases ht'
        simpa [simpleTy] using ht0
    | Infer v =>
      constructor
      · intro k hk
        simp [ty_op] at hk
      · intro t' ht'
        simp only [ty_op] at ht'
        cases ht'
        simp [simpleTy]
    | TyError =>
      constructor
      · intro k hk
        simp [ty_op] at hk
      · intro t' ht'
        simp only [ty_op] at ht'
        cases ht'
        simp [simpleTy]
    | Prim c =>
      constructor
      · intro k hk
        simp [ty_op] at hk
      · intro t' ht'
        simp only [ty_op] at ht'
        cases ht'
        simp [simpleTy]
    | FnDef did substs => simp [simpleTy] at hs
    | Dynamic preds region => simp [simpleTy] at hs
    | Projection did substs => simp [simpleTy] at hs
    | Opaque did substs => simp [simpleTy] at hs
    | Param i nm => simp [simpleTy] at hs

/-- On the simple fragment the whole folder never panics (at any fuel) and
stays inside the fragment. -/
theorem translate_simple_no_panic :
    ∀ fuel : Nat,
      (∀ (ctx : TranslationContext) (index_map : IndexMap) (t : Ty),
        simpleTy t = true →
        (∀ k, translate ctx fuel index_map t ≠ .panic k) ∧
        (∀ t', translate ctx fuel index_map t = .ok t' →
          simpleTy t' = true)) ∧
      (∀ (ctx : TranslationContext) (index_map : IndexMap)
        (args : List GenericArg), simpleArgs args = true →
        (∀ k, translateArgs ctx fuel index_map args ≠ .panic k) ∧
        (∀ a', translateArgs ctx fuel index_map args = .ok a' →
          simpleArgs a' = true)) ∧
      (∀ (ctx : TranslationContext) (index_map : IndexMap) (a : GenericArg),
        simpleArg a = true →
        (∀ k, translateArg ctx fuel index_map a ≠ .panic k) ∧
        (∀ a', translateArg ctx fuel index_map a = .ok a' →
          simpleArg a' = true)) := by
  intro fuel
  induction fuel with
  | zero =>
    refine ⟨?_, ?_, ?_⟩
    · intro ctx im t _
      exact ⟨by simp [translate], by simp [translate]⟩
    · intro ctx im args _
      exact ⟨by simp [translateArgs], by simp [translateArgs]⟩
    · intro ctx im a _
      exact ⟨by simp [translateArg], by simp [translateArg]⟩
  | succ n ih =>
    obtain ⟨ihT, ihA, iha⟩ := ih
    refine ⟨?_, ?_, ?_⟩
    · intro ctx im t hs
      cases t with
      | Adt did substs =>
        have hsubsts : simpleArgs substs = true := by simpa [simpleTy] using hs
        constructor
        · intro k hk
          simp only [translate] at hk
          rcases FoldResult.bind_eq_panic hk with h1 | ⟨t1, h1, hop⟩
          · rcases FoldResult.bind_eq_panic h1 with h2 | ⟨s', h2, h3⟩
            · exact (ihA ctx im substs hsubsts).1 k h2
            · simp at h3
          · obtain ⟨s', h2, h3⟩ := FoldResult.bind_eq_ok h1
            cases h3
            have hs' := (ihA ctx im substs hsubsts).2 s' h2
            exact (ty_op_simple ctx n im (.Adt did s')
              (by simpa [simpleTy] using hs')).1 k hop
        · intro t' ht'
          simp only [translate] at ht'
          obtain ⟨t1, h1, hop⟩ := FoldResult.bind_eq_ok ht'
          obtain ⟨s', h2, h3⟩ := FoldResult.bind_eq_ok h1
          cases h3
          have hs' := (ihA ctx im substs hsubsts).2 s' h2
          exact (ty_op_simple ctx n im (.Adt did s')
            (by simpa [simpleTy] using hs')).2 t' hop
      | Ref r t0 m =>
        have ht0 : simpleTy t0 = true := by simpa [simpleTy] using hs
        constructor
        · intro k hk
          simp only [translate] at hk
          rcases FoldResult.bind_eq_panic hk with h1 | ⟨t1, h1, hop⟩
          · rcases FoldResult.bind_eq_panic h1 with h2 | ⟨t0', h2, h3⟩
            · exact (ihT ctx im t0 ht0).1 k h2
            · simp at h3
          · obtain ⟨t0', h2, h3⟩ := FoldResult.bind_eq_ok h1
            cases h3
            have ht0' := (ihT ctx im t0 ht0).2 t0' h2
            exact (ty_op_simple ctx n im
              (.Ref (ctx.translate_region r) t0' m)
              (by simpa [simpleTy] using ht0')).1 k hop
        · intro t' ht'
          simp only [translate] at ht'
          obtain ⟨t1, h1, hop⟩ := FoldResult.bind_eq_ok ht'
          obtain ⟨t0', h2, h3⟩ := FoldResult.bind_eq_ok h1
          cases h3
          have ht0' := (ihT ctx im t0 ht0).2 t0' h2
          exact (ty_op_simple ctx n im (.Ref (ctx.translate_region r) t0' m)
            (by simpa [simpleTy] using ht0')).2 t' hop
      | Infer v =>
        constructor
        · intro k hk
          simp only [translate, FoldResult.bind_ok] at hk
          exact (ty_op_simple ctx n im (.Infer v) (by simp [simpleTy])).1 k hk
        · intro t' ht'
          simp only [translate, FoldResult.bind_ok] at ht'
          exact (ty_op_simple ctx n im (.Infer v) (by simp [simpleTy])).2 t' ht'
      | TyError =>
        constructor
        · intro k hk
          simp only [translate, FoldResult.bind_ok] at hk
          exact (ty_op_simple ctx n im .TyError (by simp [simpleTy])).1 k hk
        · intro t' ht'
          simp only [translate, FoldResult.bind_ok] at ht'
          exact (ty_op_simple ctx n im .TyError (by simp [simpleTy])).2 t' ht'
      | Prim c =>
        constructor
        · intro k hk
          simp only [translate, FoldResult.bind_ok] at hk
          exact (ty_op_simple ctx n im (.Prim c) (by simp [simpleTy])).1 k hk
        · intro t' ht'
          simp only [translate, FoldResult.bind_ok] at ht'
          exact (ty_op_simple ctx n im (.Prim c) (by simp [simpleTy])).2 t' ht'
      | FnDef did substs => simp [simpleTy] at hs
      | Dynamic preds region => simp [simpleTy] at hs
      | Projection did substs => simp [simpleTy] at hs
      | Opaque did substs => simp [simpleTy] at hs
      | Param i nm => simp [simpleTy] at hs
    · intro ctx im args hargs
      cases args with
      | nil =>
        constructor
        · intro k hk
          simp [translateArgs] at hk
        · intro a' ha'
          simp only [translateArgs] at ha'
          cases ha'
          simp [simpleArgs]
      | cons a rest =>
        have ha : simpleArg a = true := by
          simp only [simpleArgs, Bool.and_eq_true] at hargs
          exact hargs.1
        have hrest : simpleArgs rest = true := by
          simp only [simpleArgs, Bool.and_eq_true] at hargs
          exact hargs.2
        constructor
        · intro k hk
          simp only [translateArgs] at hk
          rcases FoldResult.bind_eq_panic hk with h1 | ⟨a', h1, h2⟩
          · exact (iha ctx im a ha).1 k h1
          · rcases FoldResult.bind_eq_panic h2 with h3 | ⟨r', h3, h4⟩
            · exact (ihA ctx im rest hrest).1 k h3
            · simp at h4
        · intro a' ha'
          simp only [translateArgs] at ha'
          obtain ⟨a1, h1, h2⟩ := FoldResult.bind_eq_ok ha'
          obtain ⟨r1, h3, h4⟩ := FoldResult.bind_eq_ok h2
          cases h4
          have ha1 := (iha ctx im a ha).2 a1 h1
          have hr1 := (ihA ctx im rest hrest).2 r1 h3
          simp [simpleArgs, ha1, hr1]
    · intro ctx im a hA
      cases a with
      | lifetime r =>
        constructor
        · intro k hk
          simp [translateArg] at hk
        · intro a' ha'
          simp only [translateArg] at ha'
          cases ha'
          simp [simpleArg]
      | const c =>
        constructor
        · intro k hk
          simp [translateArg] at hk
        · intro a' ha'
          simp only [translateArg] at ha'
          cases ha'
          simp [simpleArg]
      | type t =>
        have ht : simpleTy t = true := by simpa [simpleArg] using hA
        constructor
        · intro k hk
          simp only [translateArg] at hk
          rcases FoldResult.bind_eq_panic hk with h1 | ⟨t', h1, h2⟩
          · exact (ihT ctx im t ht).1 k h1
          · simp at h2
        · intro a' ha'
          simp only [translateArg] at ha'
          obtain ⟨t', h1, h2⟩ := FoldResult.bind_eq_ok ha'
          cases h2
          have := (ihT ctx im t ht).2 t' h1
          simpa [simpleArg] using this

/-- **C4 (amended).** `translate_item_type` reports no failure as a value
(its only outcomes are a type, a panic or non-termination of the underlying
fold), and on the fragment free of bound type parameters and of
substitution-carrying nodes it never panics; in general it is *not*
panic-free (see the counterexample). -/
theorem C4_translate_item_type_no_panic_on_simple (ctx : TranslationContext)
    (fuel : Nat) (orig_def_id : DefId) (t : Ty) (hs : simpleTy t = true) :
    ∀ k, ctx.translate_item_type fuel orig_def_id t ≠ .panic k :=
  fun k =>
    ((translate_simple_no_panic fuel).1 ctx
      (ctx.construct_index_map orig_def_id) t hs).1 k

/-- Counterexample to C4 as stated: `translate_item_type` is *not* total —
on a bound type parameter whose index is missing from the item's index map
it panics instead of returning a type expression. -/
theorem C4_counterexample :
    exCtx.translate_item_type 4 (DefId.local 3) (.Param 1 5)
      = .panic .indexMissing := rfl

/-- Witness for C4 on the panic-free fragment. -/
theorem C4_witness :
    exCtx.translate_item_type 5 (DefId.local 3) (.Adt exOldAbc [])
      ≠ .panic .indexMissing :=
  C4_translate_item_type_no_panic_on_simple exCtx 5 (DefId.local 3)
    (.Adt exOldAbc []) rfl .indexMissing

/-! ## C10: the bound-parameter index panic -/

/-- Only type-kind parameters of the folded list (or entries already in the
accumulator) can be found in a fold of `indexMapStep`. -/
theorem find?_foldl_indexMapStep (l : List GenericParamDef) (m : IndexMap)
    (i : Nat) (d : DefId)
    (h : IndexMap.find? (l.foldl indexMapStep m) i = some d) :
    (∃ p ∈ l, p.kind = .type ∧ p.idx = i ∧ p.def_id = d) ∨
      IndexMap.find? m i = some d := by
  induction l generalizing m with
  | nil => exact Or.inr h
  | cons p rest ih =>
    rw [List.foldl_cons] at h
    rcases ih (indexMapStep m p) h with hl | hr
    · rcases hl with ⟨q, hq, hk, hi, hd⟩
      exact Or.inl ⟨q, List.mem_cons_of_mem _ hq, hk, hi, hd⟩
    · cases hk : p.kind with
      | type =>
        rw [indexMapStep, hk] at hr
        by_cases hpi : p.idx = i
        · simp only [IndexMap.insert, IndexMap.find?, hpi, if_pos rfl] at hr
          cases hr
          exact Or.inl ⟨p, List.mem_cons_self p rest, hk, hpi, rfl⟩
        · simp only [IndexMap.insert, IndexMap.find?, hpi, if_false] at hr
          exact Or.inr hr
      | lifetime => rw [indexMapStep, hk] at hr; exact Or.inr hr
      | const => rw [indexMapStep, hk] at hr; exact Or.inr hr

/-- **C10.** With parameter translation enabled, folding a bound type
parameter at a non-zero index whose index is absent from the per-item index
map panics (models `index_map[&param.index]` on a missing key) instead of
returning the node unchanged; and `construct_index_map` only ever records
type-kind parameters of the item itself or of its immediate parent. -/
theorem C10_param_index_panic (ctx : TranslationContext) (fuel : Nat)
    (index_map : IndexMap) (i : Nat) (nm : Symbol)
    (hp : ctx.translate_params = true) (hi : i ≠ 0)
    (hm : IndexMap.find? index_map i = none) :
    ty_op ctx (fuel + 1) index_map (.Param i nm) = .panic .indexMissing ∧
    translate ctx (fuel + 2) index_map (.Param i nm) = .panic .indexMissing ∧
    (∀ did j d, IndexMap.find? (ctx.construct_index_map did) j = some d →
      ∃ p, (p ∈ (ctx.tcx.generics_of did).params ∨
            ∃ pid, (ctx.tcx.generics_of did).parent = some pid ∧
              p ∈ (ctx.tcx.generics_of pid).params) ∧
        p.kind = .type ∧ p.idx = j ∧ p.def_id = d) := by
  have hbne : (i != 0) = true := by simpa using hi
  have h1 : ty_op ctx (fuel + 1) index_map (.Param i nm)
      = .panic .indexMissing := by
    simp [ty_op, hbne, hp, hm]
  refine ⟨h1, ?_, ?_⟩
  · simp only [translate]
    simpa using h1
  · intro did j d h
    rw [TranslationContext.construct_index_map] at h
    cases hpar : (ctx.tcx.generics_of did).parent with
    | none =>
      rw [hpar] at h
      rcases find?_foldl_indexMapStep _ _ _ _ h with hl | hr
      · rcases hl with ⟨p, hp', hk, hj, hd⟩
        exact ⟨p, Or.inl hp', hk, hj, hd⟩
      · cases hr
    | some pid =>
      rw [hpar] at h
      rcases find?_foldl_indexMapStep _ _ _ _ h with hl | hr
      · rcases hl with ⟨p, hp', hk, hj, hd⟩
        exact ⟨p, Or.inr ⟨pid, rfl, hp'⟩, hk, hj, hd⟩
      · rcases find?_foldl_indexMapStep _ _ _ _ hr with hl | hr'
        · rcases hl with ⟨p, hp', hk, hj, hd⟩
          exact ⟨p, Or.inl hp', hk, hj, hd⟩
        · cases hr'

/-- Witness for C10: in the concrete context, folding the bound parameter at
index 1 with an empty index map panics. -/
theorem C10_witness :
    translate exCtx 4 [] (.Param 1 5) = .panic .indexMissing :=
  (C10_param_index_panic exCtx 2 [] 1 5 rfl (by decide) rfl).2.1

end Semverver
